import Mathlib

/-!
Verification of the ingestion and archival pipeline of the energy-data
harvester (Elia open-data forecasts and Belpex spot prices).

The Python sources are shallowly embedded below: pure computations become
Lean functions, the unbounded pagination loop becomes a fuel-indexed
recursion, filesystem and network effects become explicit state (lists of
files, response functions indexed by offset), and fallible code returns
Option or Except.  Each definition mirrors one function of the repository
(data_import_tools.py, database_tools.py, decorators.py) and keeps its name.
-/

namespace EnergyPipeline

/-! ## Retry decorator (decorators.py, data_import_tools.py: retry_on_failure)

The wrapped operation is modelled as a function from the invocation index to
an Except outcome; an exception matching allowed_exceptions is an `.error`
value with `recoverable := true` (the except-clause catches it), any other
exception has `recoverable := false` and propagates immediately.  The trace
records how many invocations were made and the duration of every sleep
executed between them. -/

/-- An exception value together with whether it matches allowed_exceptions. -/
structure PyExc where
  name : String
  recoverable : Bool
deriving DecidableEq, Repr

/-- Observable outcome of running the retry wrapper: the returned value or
propagated exception, the number of invocations of the wrapped function, and
the sleep durations in order. -/
structure RetryTrace (α : Type) where
  result : Except PyExc α
  calls : Nat
  sleeps : List ℚ
deriving Repr

/-- The while-loop of the wrapper in retry_on_failure: the local counter
_tries is the fuel, _delay the current wait; `k` counts invocations already
made and `s` accumulates the sleeps.  While _tries > 1 the call is guarded:
on a recoverable error the wrapper sleeps _delay, multiplies it by backoff
and loops with _tries - 1; the structure of the match makes the final call
(_tries ≤ 1) unguarded, exactly as the source places it after the loop. -/
def retryLoop {α : Type} (op : Nat → Except PyExc α) (backoff : ℚ) :
    Nat → ℚ → Nat → List ℚ → RetryTrace α
  | 0, _, k, s => { result := op k, calls := k + 1, sleeps := s }
  | 1, _, k, s => { result := op k, calls := k + 1, sleeps := s }
  | t + 2, d, k, s =>
    match op k with
    | .ok a => { result := .ok a, calls := k + 1, sleeps := s }
    | .error e =>
      if e.recoverable then
        retryLoop op backoff (t + 1) (d * backoff) (k + 1) (s ++ [d])
      else
        { result := .error e, calls := k + 1, sleeps := s }

/-- retry_on_failure(tries, delay, backoff) applied to an operation:
initialises the local copies _tries := tries, _delay := delay and runs the
loop. -/
def retry_on_failure {α : Type} (tries : Nat) (delay backoff : ℚ)
    (op : Nat → Except PyExc α) : RetryTrace α :=
  retryLoop op backoff tries delay 0 []

/-- A wrapped operation that raises a recoverable ConnectionError on every
invocation, used to witness the retry bound at the decorator defaults. -/
def alwaysConnError : Nat → Except PyExc Unit :=
  fun _ => .error { name := "ConnectionError", recoverable := true }

/-! ## Latest available period (data_import_tools.py:
get_latest_available_year_month, and the inline computation in the legacy
update_data)

Python ints are modelled as ℤ so the intermediate negative months
(month - 2 for January) behave exactly as in the source. -/

/-- get_latest_available_year_month for a reference date (y, m, d):
before the 5th of the month the data of the previous month is not yet
available, so two months are subtracted, otherwise one; a non-positive
month wraps by adding 12 and decrementing the year. -/
def get_latest_available_year_month (y m d : ℤ) : ℤ × ℤ :=
  let lm : ℤ := if d ≤ 4 then m - 2 else m - 1
  if lm ≤ 0 then (y - 1, lm + 12) else (y, lm)

/-! ## Paginated day fetch (data_import_tools.py: fetch_forecast_day, and
the identical inline while-loop of the legacy import_wind / import_solar)

The API is modelled as a function from the request offset to a response
(status code and the `results` array).  The unbounded `while True` loop of
the source becomes a fuel-indexed recursion; every claim is proved with
enough fuel for the loop to reach its own stopping condition.  The second
component of the result records the offset of every outbound request, in
order. -/

/-- An HTTP response of the Elia records endpoint: status code and the
parsed `results` array. -/
structure ApiResponse (α : Type) where
  status : Nat
  results : List α
deriving DecidableEq, Repr

/-- The pagination loop of fetch_forecast_day: request the page at `offset`;
on a non-200 status stop (keeping the records fetched so far); on an empty
`results` array stop; otherwise extend the accumulator, advance the offset
by `limit` and loop. -/
def fetchPages {α : Type} (api : Nat → ApiResponse α) (limit : Nat) :
    Nat → Nat → List α → List Nat → List α × List Nat
  | 0, _, acc, reqs => (acc, reqs)
  | fuel + 1, offset, acc, reqs =>
    let resp := api offset
    let reqs2 := reqs ++ [offset]
    if resp.status ≠ 200 then (acc, reqs2)
    else if resp.results.isEmpty then (acc, reqs2)
    else fetchPages api limit fuel (offset + limit) (acc ++ resp.results) reqs2

/-- fetch_forecast_day: run the pagination loop with page size 100 from
offset 0 with empty accumulators, returning (all_records, request offsets). -/
def fetch_forecast_day {α : Type} (api : Nat → ApiResponse α) (fuel : Nat) :
    List α × List Nat :=
  fetchPages api 100 fuel 0 [] []

/-- A stub API serving exactly 250 records in pages of 100, 100 and 50 under
the fixed page size of 100 (records are identified by their index); any
offset at or beyond 250 yields the empty page. -/
def stubApi250 : Nat → ApiResponse Nat := fun offset =>
  if offset = 0 then { status := 200, results := List.range' 0 100 }
  else if offset = 100 then { status := 200, results := List.range' 100 100 }
  else if offset = 200 then { status := 200, results := List.range' 200 50 }
  else { status := 200, results := [] }

/-! ## Deduplicated batch insert (database_tools.py: insert_batch and the
uniqueness constraints of SolarData, WindData and BelpexPrice)

A table is modelled as the list of its stored rows in insertion order,
parameterised by the natural-key projection of its uniqueness constraint.
SQLite's multi-row `INSERT OR IGNORE` processes the batch sequentially
against the table including rows inserted earlier in the same statement,
and its rowcount is the number of rows actually inserted; that is the fold
below.  The per-row fallback path of insert_batch applies the same
`OR IGNORE` statement row by row, so its semantics on a well-formed batch
coincide with the fold.  Timestamps are modelled as Nat instants and the
Float value columns as ℚ (no arithmetic is performed on them). -/

/-- One row of the solar_data table; natural key datetime + region
(UniqueConstraint _datetime_region_uc). -/
structure SolarRow where
  datetime : Nat
  region : String
  measured : ℚ
deriving DecidableEq, Repr

/-- One row of the wind_data table; natural key datetime + region +
offshoreonshore + gridconnectiontype
(UniqueConstraint _datetime_region_offshore_connectiontype_uc). -/
structure WindRow where
  datetime : Nat
  region : String
  offshoreonshore : String
  gridconnectiontype : String
  measured : ℚ
deriving DecidableEq, Repr

/-- One row of the belpex_prices table; natural key datetime alone
(the unique datetime column). -/
structure BelpexRow where
  datetime : Nat
  price_eur_per_mwh : ℚ
deriving DecidableEq, Repr

/-- Natural key of solar_data: (datetime, region). -/
def solarKey (r : SolarRow) : Nat × String := (r.datetime, r.region)

/-- Natural key of wind_data: (datetime, region, offshoreonshore,
gridconnectiontype). -/
def windKey (r : WindRow) : Nat × String × String × String :=
  (r.datetime, r.region, r.offshoreonshore, r.gridconnectiontype)

/-- Natural key of belpex_prices: datetime. -/
def belpexKey (r : BelpexRow) : Nat := r.datetime

/-- `INSERT OR IGNORE` of a single row: if some stored row already has the
same natural key the insert is silently ignored and the table is unchanged
(never overwritten); otherwise the row is appended.  The Bool reports
whether the row was inserted. -/
def insertIgnore {ρ κ : Type} [DecidableEq κ] (key : ρ → κ)
    (table : List ρ) (r : ρ) : List ρ × Bool :=
  if table.any (fun t => key t = key r) then (table, false)
  else (table ++ [r], true)

/-- The row-by-row processing of the batch: thread the table through
insertIgnore and count the inserted rows. -/
def insertBatchGo {ρ κ : Type} [DecidableEq κ] (key : ρ → κ) :
    List ρ → List ρ → Nat → List ρ × Nat
  | table, [], n => (table, n)
  | table, r :: batch, n =>
    let s := insertIgnore key table r
    insertBatchGo key s.1 batch (n + if s.2 then 1 else 0)

/-- insert_batch: sequential `INSERT OR IGNORE` of every row of the batch,
returning the new table and the rowcount of actually inserted rows. -/
def insert_batch {ρ κ : Type} [DecidableEq κ] (key : ρ → κ)
    (table : List ρ) (batch : List ρ) : List ρ × Nat :=
  insertBatchGo key table batch 0

/-! ## Archive compaction and staleness (data_import_tools.py:
file_needs_zip, zip_forecast_data, unzip_forecast_data)

A directory is modelled as the list of its files, each with a relative
path, its bytes, and an integer modification time in seconds.  The ZIP
archive is the list of its members.  `zipfile` stores each member's
modification time in the DOS date_time field, which has a two-second
resolution; DEFLATE compression is lossless and is modelled as the
identity on the bytes.  unzip_forecast_data restores the archived
modification time through time.mktime on the member's date_time, the
inverse of the localtime conversion used when writing. -/

/-- A file of the archive tree: relative path (as used for arcname),
bytes, and modification time in whole seconds. -/
structure FsFile where
  path : String
  content : List Nat
  mtime : Nat
deriving DecidableEq, Repr

/-- str.endswith(suffix): the suffix's characters end the string. -/
def strEndsWith (s suffix : String) : Bool :=
  suffix.data.isSuffixOf s.data

/-- file_needs_zip: true when the ZIP is absent (zipMtime = none) or some
.json file of the folder is newer than the ZIP. -/
def file_needs_zip (zipMtime : Option Nat) (files : List FsFile) : Bool :=
  match zipMtime with
  | none => true
  | some zm =>
    files.any (fun f => strEndsWith f.path ".json" && decide (zm < f.mtime))

/-- The archive produced for one year directory by zip_forecast_data: every
.json file of the walk is written under its relative path; the stored
DOS date_time keeps only a two-second resolution of the mtime. -/
def zip_forecast_data (files : List FsFile) : List FsFile :=
  (files.filter (fun f => strEndsWith f.path ".json")).map
    (fun f => { f with mtime := 2 * (f.mtime / 2) })

/-- unzip_forecast_data: extract each member in order, skipping members
whose path already exists at the destination, and restore the archived
modification time of each extracted file. -/
def unzip_forecast_data (archive : List FsFile) (dest : List FsFile) :
    List FsFile :=
  archive.foldl
    (fun d m => if d.any (fun f => f.path = m.path) then d else d ++ [m]) dest

/-! ## Per-month import with idempotent resume (data_import_tools.py:
get_days_in_month, import_forecast, and the identical inline day loop of
the legacy import_wind / import_solar)

The output directory is modelled as a list of (filename, saved records);
the API now also takes the day being fetched.  The second component of the
result counts every outbound network request made during the month. -/

/-- Gregorian leap-year rule used by calendar.monthrange. -/
def isLeapYear (y : Nat) : Bool :=
  (y % 4 == 0 && y % 100 != 0) || y % 400 == 0

/-- calendar.monthrange(year, month)[1]: the number of days of the month. -/
def monthLength (y m : Nat) : Nat :=
  if m = 2 then (if isLeapYear y then 29 else 28)
  else if m = 4 ∨ m = 6 ∨ m = 9 ∨ m = 11 then 30
  else 31

/-- Zero-padded two-digit rendering, as the 02d format of the source. -/
def pad2 (n : Nat) : String :=
  if n < 10 then "0" ++ toString n else toString n

/-- The YYYY-MM-DD date string passed to the Elia API. -/
def dateStr (y m d : Nat) : String :=
  toString y ++ "-" ++ pad2 m ++ "-" ++ pad2 d

/-- get_days_in_month: every day of the month as a YYYY-MM-DD string. -/
def get_days_in_month (year month : Nat) : List String :=
  (List.range (monthLength year month)).map (fun i => dateStr year month (i + 1))

/-- date_str.replace("-", ""): with a one-character pattern this removes
every hyphen of the string. -/
def stripHyphens (s : String) : String :=
  String.mk (s.data.filter (fun c => c ≠ '-'))

/-- The per-day output filename <pfx>_<YYYYMMDD>.json built by
import_forecast from the day's date string. -/
def output_filename (pfx date_str : String) : String :=
  pfx ++ "_" ++ stripHyphens date_str ++ ".json"

/-- The day loop of import_forecast: for each day of the month, skip the day
entirely when its output file already exists; otherwise run the paginated
fetch (counting its outbound requests) and save the day's records when any
were returned. -/
def importDays {α : Type} (api : String → Nat → ApiResponse α) (fuel : Nat)
    (pfx : String) :
    List String → List (String × List α) → Nat → List (String × List α) × Nat
  | [], fs, n => (fs, n)
  | ds :: days, fs, n =>
    if fs.any (fun f => f.1 = output_filename pfx ds) then
      importDays api fuel pfx days fs n
    else
      let r := fetchPages (api ds) 100 fuel 0 [] []
      importDays api fuel pfx days
        (if r.1.isEmpty then fs else fs ++ [(output_filename pfx ds, r.1)])
        (n + r.2.length)

/-- import_forecast: run the day loop over every day of the requested month
starting from the given directory state, with zero requests issued so far. -/
def import_forecast {α : Type} (api : String → Nat → ApiResponse α)
    (fuel : Nat) (fs : List (String × List α)) (year month : Nat)
    (pfx : String) : List (String × List α) × Nat :=
  importDays api fuel pfx (get_days_in_month year month) fs 0

/-! ## Browser export teardown (data_import_tools.py: import_belpex in both
revisions)

The flow between session creation and teardown (navigate, fill the date
fields, trigger the export, await the download, rename, convert) is
modelled by the exception it raises, if any; the trace records whether a
browser session was created and whether driver.quit() ran. -/

/-- Environment of one import_belpex run: whether the period's terminal
CSV artifact already exists, and the exception raised by the
navigate/fill/export/download/rename flow (none when it completes). -/
structure BelpexEnv where
  csvExists : Bool
  flowError : Option PyExc
deriving DecidableEq, Repr

/-- Observable trace of one import_belpex run. -/
structure BelpexTrace where
  driverCreated : Bool
  quitCalled : Bool
  outcome : Except PyExc Unit
deriving Repr

/-- The revised import_belpex: when the CSV already exists it returns before
any browser session is created; otherwise the driver is created, the flow
runs inside try, and driver.quit() runs in the finally block whether the
flow completed or raised (the exception then propagates). -/
def import_belpex (env : BelpexEnv) : BelpexTrace :=
  if env.csvExists then
    { driverCreated := false, quitCalled := false, outcome := .ok () }
  else
    { driverCreated := true, quitCalled := true,
      outcome := match env.flowError with
        | none => .ok ()
        | some e => .error e }

/-- The legacy import_belpex: the driver is created before the
existence check; when the CSV already exists the function falls through the
pass-branch and returns with the driver never quit, and driver.quit() is the
last statement of the else-branch, so an exception raised by the flow
propagates before it runs. -/
def import_belpex_legacy (env : BelpexEnv) : BelpexTrace :=
  if env.csvExists then
    { driverCreated := true, quitCalled := false, outcome := .ok () }
  else
    match env.flowError with
    | some e => { driverCreated := true, quitCalled := false,
                  outcome := .error e }
    | none => { driverCreated := true, quitCalled := true, outcome := .ok () }

/-! ## Record parsing and enrichment (database_tools.py: parse_record)

datetime.fromisoformat is modelled on the grammar the Elia records use:
YYYY-MM-DD, optionally followed by a T or space separator, HH:MM or
HH:MM:SS, and an optional ±HH:MM UTC offset, with the same range
validation the datetime constructor performs.  str.replace("Z", "+00:00")
with its one-character pattern replaces every 'Z' of the string.
dt.isocalendar()[1] is the ISO-8601 week number, computed from the
proleptic-Gregorian day number. -/

/-- The parsed aware-or-naive datetime value. -/
structure PyDateTime where
  year : Nat
  month : Nat
  day : Nat
  hour : Nat
  minute : Nat
  second : Nat
  tzMinutes : Option Int
deriving DecidableEq, Repr

/-- The numeric value of a decimal digit character. -/
def digitVal (c : Char) : Option Nat :=
  if c.isDigit then some (c.toNat - 48) else none

/-- Read exactly two decimal digits. -/
def parse2 : List Char → Option (Nat × List Char)
  | c1 :: c2 :: rest =>
    match digitVal c1, digitVal c2 with
    | some d1, some d2 => some (10 * d1 + d2, rest)
    | _, _ => none
  | _ => none

/-- Read exactly four decimal digits. -/
def parse4 : List Char → Option (Nat × List Char)
  | c1 :: c2 :: c3 :: c4 :: rest =>
    match digitVal c1, digitVal c2, digitVal c3, digitVal c4 with
    | some d1, some d2, some d3, some d4 =>
      some (1000 * d1 + 100 * d2 + 10 * d3 + d4, rest)
    | _, _, _, _ => none
  | _ => none

/-- Read the HH:MM body of a UTC offset, consuming the whole remainder. -/
def parseOffsetHM (cs : List Char) : Option Nat :=
  match parse2 cs with
  | some (h, ':' :: r2) =>
    match parse2 r2 with
    | some (m, []) => if h < 24 && m < 60 then some (h * 60 + m) else none
    | _ => none
  | _ => none

/-- Read an optional trailing ±HH:MM offset (minutes east of UTC). -/
def parseOffset : List Char → Option (Option Int)
  | [] => some none
  | '+' :: rest => (parseOffsetHM rest).map (fun m => some (m : Int))
  | '-' :: rest => (parseOffsetHM rest).map (fun m => some (-(m : Int)))
  | _ => none

/-- Read HH:MM or HH:MM:SS followed by an optional offset. -/
def parseTime (cs : List Char) : Option (Nat × Nat × Nat × Option Int) :=
  match parse2 cs with
  | some (h, ':' :: r1) =>
    match parse2 r1 with
    | some (mi, ':' :: r3) =>
      match parse2 r3 with
      | some (se, r4) =>
        match parseOffset r4 with
        | some off =>
          if h < 24 && mi < 60 && se < 60 then some (h, mi, se, off) else none
        | none => none
      | _ => none
    | some (mi, r2) =>
      match parseOffset r2 with
      | some off => if h < 24 && mi < 60 then some (h, mi, 0, off) else none
      | none => none
    | none => none
  | _ => none

/-- datetime.fromisoformat on the date / date-time grammar described above,
returning none exactly where the constructor raises ValueError. -/
def fromisoformat (s : String) : Option PyDateTime :=
  match parse4 s.data with
  | some (y, '-' :: r1) =>
    match parse2 r1 with
    | some (mo, '-' :: r2) =>
      match parse2 r2 with
      | some (d, r3) =>
        if 1 ≤ y && y ≤ 9999 && 1 ≤ mo && mo ≤ 12 && 1 ≤ d
            && d ≤ monthLength y mo then
          match r3 with
          | [] => some ⟨y, mo, d, 0, 0, 0, none⟩
          | c :: r4 =>
            if c = 'T' ∨ c = ' ' then
              match parseTime r4 with
              | some (h, mi, se, off) => some ⟨y, mo, d, h, mi, se, off⟩
              | none => none
            else none
        else none
      | _ => none
    | _ => none
  | _ => none

/-- s.replace("Z", "+00:00"): every 'Z' becomes the six characters of
"+00:00". -/
def replaceZ (s : String) : String :=
  String.mk (s.data.foldr
    (fun c acc =>
      if c = 'Z' then '+' :: '0' :: '0' :: ':' :: '0' :: '0' :: acc
      else c :: acc) [])

/-- The day of the year of a Gregorian date, 1-based. -/
def dayOfYear (y m d : Nat) : Nat :=
  (List.range (m - 1)).foldl (fun acc i => acc + monthLength y (i + 1)) 0 + d

/-- Proleptic-Gregorian day number (0001-01-01 is day 1, a Monday). -/
def rataDie (y m d : Nat) : Int :=
  365 * ((y : Int) - 1) + ((y : Int) - 1) / 4 - ((y : Int) - 1) / 100
    + ((y : Int) - 1) / 400 + (dayOfYear y m d : Int)

/-- dt.isoweekday(): Monday = 1 through Sunday = 7. -/
def isoWeekday (y m d : Nat) : Int :=
  (rataDie y m d - 1) % 7 + 1

/-- The number of ISO weeks of a year: 53 when January 1 falls on a
Thursday, or on a Wednesday of a leap year; otherwise 52. -/
def isoWeeksInYear (y : Nat) : Int :=
  if isoWeekday y 1 1 = 4 ∨ (isLeapYear y ∧ isoWeekday y 1 1 = 3) then 53
  else 52

/-- dt.isocalendar()[1]: the ISO-8601 week number of the date. -/
def isoWeek (y m d : Nat) : Int :=
  let w := ((dayOfYear y m d : Int) - isoWeekday y m d + 10) / 7
  if w < 1 then isoWeeksInYear (y - 1)
  else if isoWeeksInYear y < w then 1
  else w

/-- A raw record as loaded from a day's JSON file: the 'datetime' entry
(none models a record without that key — the KeyError is caught by the
same except clause) and the remaining payload entries, which parse_record
leaves untouched. -/
structure RawRecord where
  datetime : Option String
  fields : List (String × String)
deriving DecidableEq, Repr

/-- The record after enrichment: the parsed instant replaces the string and
the derived calendar fields are added. -/
structure EnrichedRecord where
  datetime : PyDateTime
  day : Nat
  month : Nat
  year : Nat
  hour : Nat
  minute : Nat
  week : Int
  fields : List (String × String)
deriving DecidableEq, Repr

/-- parse_record: normalize the 'Z' suffix, parse the timestamp, and derive
day/month/year/hour/minute/week from the parsed instant; any failure
(missing key or ValueError) is caught and None is returned. -/
def parse_record (r : RawRecord) : Option EnrichedRecord :=
  match r.datetime with
  | none => none
  | some s =>
    match fromisoformat (replaceZ s) with
    | none => none
    | some dt =>
      some { datetime := dt, day := dt.day, month := dt.month,
             year := dt.year, hour := dt.hour, minute := dt.minute,
             week := isoWeek dt.year dt.month dt.day, fields := r.fields }

/-! ## Update orchestrator (data_import_tools.py: update_data)

The per-kind import functions are modelled by whether they raise for a
given (kind, year, month); the trace records whether the archives were
expanded, every attempted (kind, year, month) in order, the attempts whose
exception was caught and logged, the counter of successful fetches, and
whether the archives were recompacted.  Years and months are ℤ as in the
source.  A ValueError for an invalid data_type is the .error result,
returned before any unzip, fetch or zip work. -/

/-- The set of accepted data_type arguments. -/
def allowedTypes : List String := ["wind", "solar", "belpex", "all"]

/-- The import_funcs process map in its insertion order. -/
def importKinds : List String := ["wind", "solar", "belpex"]

/-- range(a, b + 1) over ℤ. -/
def intRange (a b : ℤ) : List ℤ :=
  (List.range (b + 1 - a).toNat).map (fun i => a + (i : ℤ))

/-- range(1, 13): the months of a year. -/
def monthsList : List ℤ := (List.range 12).map (fun i => (i : ℤ) + 1)

/-- Every (year, month) pair visited by the two nested loops. -/
def periodsList (from_year to_year : ℤ) : List (ℤ × ℤ) :=
  (intRange from_year to_year).flatMap
    (fun y => monthsList.map (fun m => (y, m)))

/-- Observable trace of one update_data run. -/
structure UpdateTrace where
  unzipped : Bool
  attempts : List (String × ℤ × ℤ)
  failures : List (String × ℤ × ℤ)
  counter : Nat
  zipped : Bool
deriving DecidableEq, Repr

/-- Whether the run includes a forecast kind, guarding the unzip and zip
phases. -/
def isForecastChoice (data_type : String) : Bool :=
  decide (data_type = "wind" ∨ data_type = "solar" ∨ data_type = "all")

/-- The body of the inner loop over the process map for one period: when the
kind is selected, attempt its import; a raising import is caught and logged
(recorded under failures), a successful one increments the counter. -/
def kindStep (fails : String → ℤ → ℤ → Bool) (data_type : String) (y m : ℤ)
    (tr : UpdateTrace) (k : String) : UpdateTrace :=
  if data_type = k ∨ data_type = "all" then
    if fails k y m then
      { tr with attempts := tr.attempts ++ [(k, y, m)],
                failures := tr.failures ++ [(k, y, m)] }
    else
      { tr with attempts := tr.attempts ++ [(k, y, m)],
                counter := tr.counter + 1 }
  else tr

/-- The body of the month loop: periods beyond the latest available one are
skipped, the rest run the inner kind loop. -/
def periodStep (fails : String → ℤ → ℤ → Bool) (data_type : String)
    (latest : ℤ × ℤ) (tr : UpdateTrace) (p : ℤ × ℤ) : UpdateTrace :=
  if (p.1 = latest.1 ∧ latest.2 < p.2) ∨ latest.1 < p.1 then tr
  else importKinds.foldl (kindStep fails data_type p.1 p.2) tr

/-- update_data: compute the latest available period, validate data_type
(raising ValueError before any other work), unzip the archives for forecast
kinds, run the period loops, and recompact for forecast kinds. -/
def update_data (fails : String → ℤ → ℤ → Bool) (todayY todayM todayD : ℤ)
    (from_year to_year : ℤ) (data_type : String) : Except String UpdateTrace :=
  let latest := get_latest_available_year_month todayY todayM todayD
  if data_type ∉ allowedTypes then .error "invalid data_type"
  else
    let tr0 : UpdateTrace :=
      { unzipped := isForecastChoice data_type, attempts := [], failures := [],
        counter := 0, zipped := false }
    let tr1 := (periodsList from_year to_year).foldl
      (periodStep fails data_type latest) tr0
    .ok { tr1 with zipped := isForecastChoice data_type }

/-- The kinds of the process map selected by a data_type argument. -/
def selectedKinds (data_type : String) : List String :=
  importKinds.filter (fun k => data_type = k ∨ data_type = "all")

/-- The attempts one period contributes: none when the period lies beyond
the latest available one, otherwise one per selected kind. -/
def attemptsFor (data_type : String) (latest : ℤ × ℤ) (p : ℤ × ℤ) :
    List (String × ℤ × ℤ) :=
  if (p.1 = latest.1 ∧ latest.2 < p.2) ∨ latest.1 < p.1 then []
  else (selectedKinds data_type).map (fun k => (k, p.1, p.2))

/-- Every (kind, year, month) a run over the window must attempt,
independent of which imports fail. -/
def plannedAttempts (latest : ℤ × ℤ) (from_year to_year : ℤ)
    (data_type : String) : List (String × ℤ × ℤ) :=
  (periodsList from_year to_year).flatMap (attemptsFor data_type latest)

end EnergyPipeline

namespace EnergyPipeline

/-- Invariant of the retry loop when every invocation fails recoverably:
with fuel t + 1 the loop makes t + 1 further calls, appends the geometric
sleep sequence starting at the current delay, and ends with the outcome of
the last call. -/
theorem retryLoop_always_fails {α : Type} (op : Nat → Except PyExc α)
    (e : Nat → PyExc) (hop : ∀ k, op k = .error (e k))
    (hrec : ∀ k, (e k).recoverable = true) (b : ℚ) :
    ∀ t d k s, (retryLoop op b (t + 1) d k s).calls = k + t + 1 ∧
      (retryLoop op b (t + 1) d k s).sleeps =
        s ++ (List.range t).map (fun i => d * b ^ i) ∧
      (retryLoop op b (t + 1) d k s).result = op (k + t) := by
  intro t
  induction t with
  | zero =>
    intro d k s
    exact ⟨rfl, by simp [retryLoop], rfl⟩
  | succ n ih =>
    intro d k s
    have h1 : retryLoop op b (n + 1 + 1) d k s
        = retryLoop op b (n + 1) (d * b) (k + 1) (s ++ [d]) := by
      simp [retryLoop, hop k, hrec k]
    obtain ⟨hc, hs, hr⟩ := ih (d * b) (k + 1) (s ++ [d])
    refine ⟨?_, ?_, ?_⟩
    · rw [h1, hc]; omega
    · rw [h1, hs]
      have hfun : (fun i => d * b * b ^ i) = (fun i => d * b ^ (i + 1)) := by
        funext i; rw [pow_succ]; ring
      rw [hfun, List.append_assoc]
      congr 1
      rw [List.range_succ_eq_map, List.map_cons, List.map_map]
      simp [Function.comp]
    · rw [h1, hr]
      congr 1
      omega

/-- C2: a retry_on_failure(tries = N, delay = d, backoff = b) wrapper around
an operation that raises a recoverable exception on every invocation invokes
the operation exactly N times (N ≥ 1), sleeps exactly N - 1 times with
durations d, d·b, d·b², …, and propagates the exception of the final,
unguarded invocation. -/
theorem retry_on_failure_always_fails (N : Nat) (d b : ℚ)
    (op : Nat → Except PyExc Unit) (e : Nat → PyExc)
    (hop : ∀ k, op k = .error (e k)) (hrec : ∀ k, (e k).recoverable = true)
    (hN : 1 ≤ N) :
    (retry_on_failure N d b op).calls = N ∧
    (retry_on_failure N d b op).sleeps =
      (List.range (N - 1)).map (fun i => d * b ^ i) ∧
    (retry_on_failure N d b op).result = .error (e (N - 1)) := by
  obtain ⟨t, rfl⟩ : ∃ t, N = t + 1 := ⟨N - 1, by omega⟩
  obtain ⟨hc, hs, hr⟩ := retryLoop_always_fails op e hop hrec b t d 0 []
  refine ⟨?_, ?_, ?_⟩
  · rw [retry_on_failure, hc]; omega
  · rw [retry_on_failure, hs]; simp
  · rw [retry_on_failure, hr]; simp [hop]

/-- Witness for C2 at tries = 3, delay = 2, backoff = 1 (the decorator's
defaults): 3 invocations, sleeps [2, 2], final error propagated. -/
theorem retry_on_failure_always_fails_witness :
    (1 ≤ 3 ∧ (∀ k, alwaysConnError k
        = .error { name := "ConnectionError", recoverable := true })) ∧
    (retry_on_failure 3 2 1 alwaysConnError).calls = 3 ∧
    (retry_on_failure 3 2 1 alwaysConnError).sleeps = [2, 2] ∧
    (retry_on_failure 3 2 1 alwaysConnError).result
      = .error { name := "ConnectionError", recoverable := true } := by
  have h := retry_on_failure_always_fails 3 2 1 alwaysConnError
    (fun _ => { name := "ConnectionError", recoverable := true })
    (fun _ => rfl) (fun _ => rfl) (by decide)
  obtain ⟨h1, h2, h3⟩ := h
  refine ⟨⟨by decide, fun _ => rfl⟩, h1, ?_, h3⟩
  rw [h2]
  norm_num [List.range_succ]

/-- C10: for every reference date with a month in 1..12, the computed
latest-available period has a month in 1..12; when the day of month is at
least 5 it is the calendar month one month before the reference date, and
when the day is at most 4 two months before, the year being decremented
exactly when the subtraction crosses the year boundary. -/
theorem get_latest_available_year_month_correct (y m d : ℤ)
    (hm1 : 1 ≤ m) (hm2 : m ≤ 12) :
    (1 ≤ (get_latest_available_year_month y m d).2 ∧
      (get_latest_available_year_month y m d).2 ≤ 12) ∧
    (5 ≤ d →
      get_latest_available_year_month y m d
        = if m = 1 then (y - 1, 12) else (y, m - 1)) ∧
    (d ≤ 4 →
      get_latest_available_year_month y m d
        = if m ≤ 2 then (y - 1, m + 10) else (y, m - 2)) := by
  simp only [get_latest_available_year_month]
  refine ⟨?_, ?_, ?_⟩
  · split_ifs <;> simp <;> omega
  · intro hd
    split_ifs <;> simp [Prod.ext_iff] <;> omega
  · intro hd
    split_ifs <;> simp [Prod.ext_iff] <;> omega

/-- Witness for C10 at the reference date 2026-01-03: the day is at most 4,
so the period two months before, 2025-11, is computed. -/
theorem get_latest_available_year_month_correct_witness :
    ((1:ℤ) ≤ 1 ∧ (1:ℤ) ≤ 12 ∧ (3:ℤ) ≤ 4) ∧
    get_latest_available_year_month 2026 1 3 = (2025, 11) := by
  have h := get_latest_available_year_month_correct 2026 1 3 (by norm_num)
    (by norm_num)
  have h2 := h.2.2 (by norm_num)
  norm_num at h2
  exact ⟨⟨by norm_num, by norm_num, by norm_num⟩, h2⟩

set_option maxRecDepth 4000 in
/-- C1 counterexample: against the stub API serving 250 records in pages of
100/100/50, fetch_forecast_day returns all 250 records but issues four
outbound requests, not three: after the 50-record page the loop advances the
offset to 300 and only stops once that request returns the empty page. -/
theorem fetch_forecast_day_three_requests_false :
    (fetch_forecast_day stubApi250 10).1.length = 250 ∧
    (fetch_forecast_day stubApi250 10).2 ≠ [0, 100, 200] ∧
    (fetch_forecast_day stubApi250 10).2.length ≠ 3 := by
  refine ⟨by decide, by decide, by decide⟩

/-- C1 amended: for a day on which the API serves 250 records in successive
pages of 100, 100 and 50 under the fixed page size of 100, the per-day fetch
returns exactly 250 records and issues exactly four outbound requests, with
offsets 0, 100, 200 and 300, the offset-advancing loop stopping only when
the final request returns an empty page. -/
theorem fetch_forecast_day_pagination {α : Type} (api : Nat → ApiResponse α)
    (p0 p1 p2 : List α)
    (h0 : api 0 = { status := 200, results := p0 })
    (h1 : api 100 = { status := 200, results := p1 })
    (h2 : api 200 = { status := 200, results := p2 })
    (h3 : api 300 = { status := 200, results := [] })
    (l0 : p0.length = 100) (l1 : p1.length = 100) (l2 : p2.length = 50)
    (fuel : Nat) (hf : 4 ≤ fuel) :
    (fetch_forecast_day api fuel).1 = p0 ++ p1 ++ p2 ∧
    (fetch_forecast_day api fuel).1.length = 250 ∧
    (fetch_forecast_day api fuel).2 = [0, 100, 200, 300] := by
  obtain ⟨f, rfl⟩ : ∃ f, fuel = f + 4 := ⟨fuel - 4, by omega⟩
  have e0 : p0.isEmpty = false := by cases p0 with
    | nil => simp at l0
    | cons a t => rfl
  have e1 : p1.isEmpty = false := by cases p1 with
    | nil => simp at l1
    | cons a t => rfl
  have e2 : p2.isEmpty = false := by cases p2 with
    | nil => simp at l2
    | cons a t => rfl
  have key : fetch_forecast_day api (f + 4) = (p0 ++ p1 ++ p2, [0, 100, 200, 300]) := by
    show fetchPages api 100 (f + 4) 0 [] [] = _
    simp [fetchPages, h0, h1, h2, h3, e0, e1, e2]
  refine ⟨by rw [key], ?_, by rw [key]⟩
  rw [key]
  simp [l0, l1, l2]

/-- Witness for C1's amended claim at the concrete 250-record stub API with
fuel 4. -/
theorem fetch_forecast_day_pagination_witness :
    (stubApi250 0 = { status := 200, results := List.range' 0 100 } ∧
      (List.range' 0 100).length = 100 ∧ (List.range' 200 50).length = 50 ∧
      4 ≤ 4) ∧
    (fetch_forecast_day stubApi250 4).1
      = List.range' 0 100 ++ List.range' 100 100 ++ List.range' 200 50 ∧
    (fetch_forecast_day stubApi250 4).1.length = 250 ∧
    (fetch_forecast_day stubApi250 4).2 = [0, 100, 200, 300] := by
  have h := fetch_forecast_day_pagination stubApi250
    (List.range' 0 100) (List.range' 100 100) (List.range' 200 50)
    rfl rfl rfl rfl (by simp) (by simp) (by simp) 4 (by norm_num)
  exact ⟨⟨rfl, by simp, by simp, by norm_num⟩, h.1, h.2.1, h.2.2⟩

section InsertBatch

variable {ρ κ : Type} [DecidableEq κ] (key : ρ → κ)

/-- The table only ever grows: insertBatchGo appends some suffix. -/
theorem insertBatchGo_extends :
    ∀ (B T : List ρ) (n : Nat), ∃ S, (insertBatchGo key T B n).1 = T ++ S := by
  intro B
  induction B with
  | nil => intro T n; exact ⟨[], by simp [insertBatchGo]⟩
  | cons r B ih =>
    intro T n
    by_cases h : T.any (fun t => key t = key r)
    · obtain ⟨S, hS⟩ := ih T (n + 0)
      exact ⟨S, by simpa [insertBatchGo, insertIgnore, h] using hS⟩
    · obtain ⟨S, hS⟩ := ih (T ++ [r]) (n + 1)
      refine ⟨[r] ++ S, ?_⟩
      rw [← List.append_assoc]
      simpa [insertBatchGo, insertIgnore, h] using hS

/-- If every row of the batch already has its natural key in the table,
insertBatchGo leaves the table and the counter unchanged. -/
theorem insertBatchGo_id_of_present :
    ∀ (B T : List ρ) (n : Nat), (∀ r ∈ B, ∃ t ∈ T, key t = key r) →
      insertBatchGo key T B n = (T, n) := by
  intro B
  induction B with
  | nil => intro T n _; rfl
  | cons r B ih =>
    intro T n h
    have hr : T.any (fun t => key t = key r) = true := by
      obtain ⟨t, ht, hk⟩ := h r (by simp)
      exact List.any_eq_true.2 ⟨t, ht, by simp [hk]⟩
    have : insertBatchGo key T (r :: B) n = insertBatchGo key T B n := by
      simp [insertBatchGo, insertIgnore, hr]
    rw [this]
    exact ih T n (fun x hx => h x (by simp [hx]))

/-- After the batch is processed, every row of the batch has its natural key
present in the resulting table. -/
theorem insertBatchGo_key_present :
    ∀ (B T : List ρ) (n : Nat) (r : ρ), r ∈ B →
      ∃ t ∈ (insertBatchGo key T B n).1, key t = key r := by
  intro B
  induction B with
  | nil => intro T n r hr; simp at hr
  | cons a B ih =>
    intro T n r hr
    rcases List.mem_cons.1 hr with rfl | hmem
    · by_cases h : T.any (fun t => key t = key r)
      · obtain ⟨t, ht, hk⟩ := List.any_eq_true.1 h
        have step : insertBatchGo key T (r :: B) n = insertBatchGo key T B n := by
          simp [insertBatchGo, insertIgnore, h]
        obtain ⟨S, hS⟩ := insertBatchGo_extends key B T n
        rw [step]
        exact ⟨t, by rw [hS]; exact List.mem_append_left _ ht, by simpa using hk⟩
      · have step : insertBatchGo key T (r :: B) n
            = insertBatchGo key (T ++ [r]) B (n + 1) := by
          simp [insertBatchGo, insertIgnore, h]
        obtain ⟨S, hS⟩ := insertBatchGo_extends key B (T ++ [r]) (n + 1)
        rw [step]
        refine ⟨r, ?_, rfl⟩
        rw [hS]
        exact List.mem_append_left _ (by simp)
    · by_cases h : T.any (fun t => key t = key a) <;>
        simpa [insertBatchGo, insertIgnore, h] using
          (by first
            | exact ih T (n + 0) r hmem
            | exact ih (T ++ [a]) (n + 1) r hmem)

/-- Natural-key uniqueness is preserved: if the table's keys are pairwise
distinct before the batch, they are pairwise distinct after. -/
theorem insertBatchGo_nodup :
    ∀ (B T : List ρ) (n : Nat), (T.map key).Nodup →
      ((insertBatchGo key T B n).1.map key).Nodup := by
  intro B
  induction B with
  | nil => intro T n h; simpa [insertBatchGo] using h
  | cons r B ih =>
    intro T n h
    by_cases hr : T.any (fun t => key t = key r)
    · have step : insertBatchGo key T (r :: B) n = insertBatchGo key T B n := by
        simp [insertBatchGo, insertIgnore, hr]
      rw [step]; exact ih T n h
    · have step : insertBatchGo key T (r :: B) n
          = insertBatchGo key (T ++ [r]) B (n + 1) := by
        simp [insertBatchGo, insertIgnore, hr]
      rw [step]
      refine ih (T ++ [r]) (n + 1) ?_
      have hnot : key r ∉ T.map key := by
        intro hmem
        obtain ⟨t, ht, hk⟩ := List.mem_map.1 hmem
        exact hr (List.any_eq_true.2 ⟨t, ht, by simp [hk]⟩)
      simp [List.nodup_append, h, hnot]

/-- A list whose key images are pairwise distinct holds exactly one row per
present natural key. -/
theorem filter_key_singleton :
    ∀ (l : List ρ), (l.map key).Nodup → ∀ c : ρ, (∃ t ∈ l, key t = key c) →
      (l.filter (fun t => key t = key c)).length = 1 := by
  intro l
  induction l with
  | nil => intro _ c hc; simp at hc
  | cons a l ih =>
    intro h c hc
    have h1 : key a ∉ l.map key := (List.nodup_cons.1 (by simpa using h)).1
    have h2 : (l.map key).Nodup := (List.nodup_cons.1 (by simpa using h)).2
    by_cases hak : key a = key c
    · have hnone : l.filter (fun t => key t = key c) = [] := by
        refine List.filter_eq_nil_iff.2 ?_
        intro t ht hk
        exact h1 (List.mem_map.2 ⟨t, ht, by simp at hk; rw [hk, hak]⟩)
      simp [List.filter_cons, hak, hnone]
    · obtain ⟨t, ht, hk⟩ := hc
      rcases List.mem_cons.1 ht with rfl | hmem
      · exact absurd hk hak
      · have := ih h2 c ⟨t, hmem, hk⟩
        simpa [List.filter_cons, hak] using this

end InsertBatch

/-- C3: under the natural-key uniqueness constraint (datetime + region for
solar, datetime + region + offshoreonshore + gridconnectiontype for wind,
datetime alone for prices, all instances of the key projection `key`),
inserting a row whose natural key is already present is silently ignored
and never overwrites; insert_batch only appends new rows, keeps the keys of
the stored rows pairwise distinct (exactly one stored row per natural key),
and applied a second time to an identical batch inserts nothing and returns
inserted_count = 0. -/
theorem insert_batch_dedup {ρ κ : Type} [DecidableEq κ] (key : ρ → κ)
    (T B : List ρ) (hT : (T.map key).Nodup) :
    (∀ r, (∃ t ∈ T, key t = key r) → insertIgnore key T r = (T, false)) ∧
    (∃ S, (insert_batch key T B).1 = T ++ S) ∧
    ((insert_batch key T B).1.map key).Nodup ∧
    (∀ r ∈ B,
      ((insert_batch key T B).1.filter (fun t => key t = key r)).length = 1) ∧
    insert_batch key (insert_batch key T B).1 B
      = ((insert_batch key T B).1, 0) := by
  refine ⟨?_, ?_, ?_, ?_, ?_⟩
  · intro r ⟨t, ht, hk⟩
    have : T.any (fun t => key t = key r) = true :=
      List.any_eq_true.2 ⟨t, ht, by simp [hk]⟩
    simp [insertIgnore, this]
  · exact insertBatchGo_extends key B T 0
  · exact insertBatchGo_nodup key B T 0 hT
  · intro r hr
    exact filter_key_singleton key _ (insertBatchGo_nodup key B T 0 hT) r
      (insertBatchGo_key_present key B T 0 r hr)
  · exact insertBatchGo_id_of_present key B _ 0
      (fun r hr => insertBatchGo_key_present key B T 0 r hr)

/-- Witness for C3 on the wind table: an empty table, a two-row batch whose
rows differ only in gridconnectiontype (distinct natural keys). -/
theorem insert_batch_dedup_witness :
    ((([] : List WindRow).map windKey).Nodup) ∧
    insert_batch windKey ([] : List WindRow)
        [{ datetime := 0, region := "Flanders", offshoreonshore := "Onshore",
           gridconnectiontype := "Elia", measured := 1 },
         { datetime := 0, region := "Flanders", offshoreonshore := "Onshore",
           gridconnectiontype := "DSO", measured := 2 }]
      = ([{ datetime := 0, region := "Flanders", offshoreonshore := "Onshore",
            gridconnectiontype := "Elia", measured := 1 },
          { datetime := 0, region := "Flanders", offshoreonshore := "Onshore",
            gridconnectiontype := "DSO", measured := 2 }], 2) ∧
    insert_batch windKey
        [{ datetime := 0, region := "Flanders", offshoreonshore := "Onshore",
           gridconnectiontype := "Elia", measured := 1 },
         { datetime := 0, region := "Flanders", offshoreonshore := "Onshore",
           gridconnectiontype := "DSO", measured := 2 }]
        [{ datetime := 0, region := "Flanders", offshoreonshore := "Onshore",
           gridconnectiontype := "Elia", measured := 1 },
         { datetime := 0, region := "Flanders", offshoreonshore := "Onshore",
           gridconnectiontype := "DSO", measured := 2 }]
      = ([{ datetime := 0, region := "Flanders", offshoreonshore := "Onshore",
            gridconnectiontype := "Elia", measured := 1 },
          { datetime := 0, region := "Flanders", offshoreonshore := "Onshore",
            gridconnectiontype := "DSO", measured := 2 }], 0) := by
  have h := insert_batch_dedup windKey ([] : List WindRow)
    [{ datetime := 0, region := "Flanders", offshoreonshore := "Onshore",
       gridconnectiontype := "Elia", measured := 1 },
     { datetime := 0, region := "Flanders", offshoreonshore := "Onshore",
       gridconnectiontype := "DSO", measured := 2 }] (by simp)
  have hfirst : insert_batch windKey ([] : List WindRow)
      [{ datetime := 0, region := "Flanders", offshoreonshore := "Onshore",
         gridconnectiontype := "Elia", measured := 1 },
       { datetime := 0, region := "Flanders", offshoreonshore := "Onshore",
         gridconnectiontype := "DSO", measured := 2 }]
      = ([{ datetime := 0, region := "Flanders", offshoreonshore := "Onshore",
            gridconnectiontype := "Elia", measured := 1 },
          { datetime := 0, region := "Flanders", offshoreonshore := "Onshore",
            gridconnectiontype := "DSO", measured := 2 }], 2) := by
    simp [insert_batch, insertBatchGo, insertIgnore, windKey]
  refine ⟨by simp, hfirst, ?_⟩
  have h2 := h.2.2.2.2
  rw [hfirst] at h2
  simpa using h2

/-- C5: file_needs_zip is true iff the ZIP is absent or some .json source
file of the folder has a modification time strictly greater than the ZIP's;
consequently it is false whenever the ZIP is at least as new as every .json
member (the state produced by a successful compaction), and true as soon as
any member file's modification time is bumped past the ZIP's. -/
theorem file_needs_zip_correct (files : List FsFile) :
    (file_needs_zip none files = true) ∧
    (∀ zm : Nat, file_needs_zip (some zm) files = true ↔
      ∃ f ∈ files, strEndsWith f.path ".json" = true ∧ zm < f.mtime) ∧
    (∀ zm : Nat,
      (∀ f ∈ files, strEndsWith f.path ".json" = true → f.mtime ≤ zm) →
      file_needs_zip (some zm) files = false) ∧
    (∀ zm : Nat, ∀ f ∈ files, strEndsWith f.path ".json" = true →
      zm < f.mtime → file_needs_zip (some zm) files = true) := by
  refine ⟨rfl, ?_, ?_, ?_⟩
  · intro zm
    simp [file_needs_zip, List.any_eq_true]
  · intro zm h
    apply List.any_eq_false.2
    intro f hf
    cases hsw : strEndsWith f.path ".json" with
    | false => simp [hsw]
    | true =>
      have hle := h f hf hsw
      simp [hsw, decide_eq_false_iff_not]
      omega
  · intro zm f hf hj hlt
    refine List.any_eq_true.2 ⟨f, hf, ?_⟩
    simp [hj, hlt]

/-- Witness for C5: one JSON file with mtime 12 — true for an absent ZIP,
false for a ZIP of mtime 12, true again for a ZIP of mtime 10. -/
theorem file_needs_zip_correct_witness :
    file_needs_zip none
        [{ path := "WindForecast_Elia_20240101.json", content := [],
           mtime := 12 }] = true ∧
    file_needs_zip (some 12)
        [{ path := "WindForecast_Elia_20240101.json", content := [],
           mtime := 12 }] = false ∧
    file_needs_zip (some 10)
        [{ path := "WindForecast_Elia_20240101.json", content := [],
           mtime := 12 }] = true := by
  have h := file_needs_zip_correct
    [{ path := "WindForecast_Elia_20240101.json", content := [], mtime := 12 }]
  exact ⟨h.1, h.2.2.1 12 (by decide),
    h.2.2.2 10
      { path := "WindForecast_Elia_20240101.json", content := [], mtime := 12 }
      (by simp) (by decide) (by decide)⟩

/-- Extracting into a destination that holds none of the member paths (an
empty directory in particular) appends every member: nothing is skipped. -/
theorem unzip_forecast_data_all_new :
    ∀ (A d : List FsFile), ((A.map fun f => f.path).Nodup) →
      (∀ m ∈ A, ∀ f ∈ d, f.path ≠ m.path) →
      unzip_forecast_data A d = d ++ A := by
  intro A
  induction A with
  | nil => intro d _ _; simp [unzip_forecast_data]
  | cons m A ih =>
    intro d hnd hdisj
    have hany : d.any (fun f => f.path = m.path) = false := by
      apply List.any_eq_false.2
      intro f hf
      simpa using hdisj m (by simp) f hf
    have hstep : unzip_forecast_data (m :: A) d
        = unzip_forecast_data A (d ++ [m]) := by
      simp only [unzip_forecast_data, List.foldl_cons, hany,
        Bool.false_eq_true, if_false]
    have hnd2 : ((A.map fun f => f.path).Nodup) :=
      (List.nodup_cons.1 (by simpa using hnd)).2
    have hhead : m.path ∉ A.map fun f => f.path :=
      (List.nodup_cons.1 (by simpa using hnd)).1
    rw [hstep, ih (d ++ [m]) hnd2 ?_]
    · simp
    · intro m' hm' f hf
      rcases List.mem_append.1 hf with hfd | hfm
      · exact hdisj m' (by simp [hm']) f hfd
      · have : f = m := by simpa using hfm
        subst this
        intro hc
        exact hhead (List.mem_map.2 ⟨m', hm', hc.symm⟩)

/-- C4: compacting a year directory of JSON files with zip_forecast_data
and expanding the archive with unzip_forecast_data into an empty
destination reconstructs byte-identical files at the same relative paths;
each extracted file's modification time is the original truncated to the
archive's two-second DOS resolution, hence equal to the original within
that resolution. -/
theorem zip_unzip_roundtrip (files : List FsFile)
    (hjson : ∀ f ∈ files, strEndsWith f.path ".json" = true)
    (hpaths : (files.map fun f => f.path).Nodup) :
    unzip_forecast_data (zip_forecast_data files) []
      = files.map (fun f => { f with mtime := 2 * (f.mtime / 2) }) ∧
    ∀ f ∈ files, 2 * (f.mtime / 2) ≤ f.mtime ∧
      f.mtime - 2 * (f.mtime / 2) < 2 := by
  have hfilter : files.filter (fun f => strEndsWith f.path ".json") = files :=
    List.filter_eq_self.2 (fun f hf => hjson f hf)
  have hzip : zip_forecast_data files
      = files.map (fun f => { f with mtime := 2 * (f.mtime / 2) }) := by
    rw [zip_forecast_data, hfilter]
  constructor
  · rw [hzip]
    have hnd : (((files.map (fun f => { f with mtime := 2 * (f.mtime / 2) })).map
        fun f => f.path).Nodup) := by
      rw [List.map_map]
      exact hpaths
    rw [unzip_forecast_data_all_new _ [] hnd (by intro m _ f hf; simp at hf)]
    simp
  · intro f _
    omega

/-- Witness for C4: two JSON day files with odd and even mtimes round-trip
to the same paths and bytes, mtimes truncated to even seconds. -/
theorem zip_unzip_roundtrip_witness :
    unzip_forecast_data (zip_forecast_data
        [{ path := "2024/WindForecast_Elia_20240101.json",
           content := [91, 93], mtime := 101 },
         { path := "2024/WindForecast_Elia_20240102.json",
           content := [91, 32, 93], mtime := 204 }]) []
      = [{ path := "2024/WindForecast_Elia_20240101.json",
           content := [91, 93], mtime := 100 },
         { path := "2024/WindForecast_Elia_20240102.json",
           content := [91, 32, 93], mtime := 204 }] ∧
    101 - 100 < 2 := by
  have h := zip_unzip_roundtrip
    [{ path := "2024/WindForecast_Elia_20240101.json",
       content := [91, 93], mtime := 101 },
     { path := "2024/WindForecast_Elia_20240102.json",
       content := [91, 32, 93], mtime := 204 }]
    (by decide) (by decide)
  refine ⟨?_, by norm_num⟩
  rw [h.1]
  decide

/-- The day loop leaves the directory untouched and issues no request when
every listed day's output file already exists. -/
theorem importDays_skip_all {α : Type} (api : String → Nat → ApiResponse α)
    (fuel : Nat) (pfx : String) :
    ∀ (days : List String) (fs : List (String × List α)) (n : Nat),
      (∀ ds ∈ days, fs.any (fun f => f.1 = output_filename pfx ds) = true) →
      importDays api fuel pfx days fs n = (fs, n) := by
  intro days
  induction days with
  | nil => intro fs n _; rfl
  | cons ds days ih =>
    intro fs n h
    have hx : fs.any (fun f => f.1 = output_filename pfx ds) = true :=
      h ds (by simp)
    have hstep : importDays api fuel pfx (ds :: days) fs n
        = importDays api fuel pfx days fs n := by
      simp [importDays, hx]
    rw [hstep]
    exact ih fs n (fun d hd => h d (by simp [hd]))

/-- C6: when the output JSON file of every calendar day of the requested
month already exists, the per-month import skips every day, issues zero
network requests, and leaves the directory unchanged — so a second run over
a fully materialized month performs zero network calls. -/
theorem import_forecast_idempotent {α : Type}
    (api : String → Nat → ApiResponse α) (fuel : Nat)
    (fs : List (String × List α)) (year month : Nat) (pfx : String)
    (h : ∀ ds ∈ get_days_in_month year month,
      fs.any (fun f => f.1 = output_filename pfx ds) = true) :
    import_forecast api fuel fs year month pfx = (fs, 0) :=
  importDays_skip_all api fuel pfx (get_days_in_month year month) fs 0 h

/-- Witness for C6: February 2024 (29 days) with every day's file present —
the import returns the directory unchanged with zero requests even against
an API that would serve records. -/
theorem import_forecast_idempotent_witness :
    (get_days_in_month 2024 2).length = 29 ∧
    import_forecast (fun _ _ => { status := 200, results := [0] }) 5
        ((get_days_in_month 2024 2).map
          (fun ds => (output_filename "WindForecast_Elia" ds, ([] : List Nat))))
        2024 2 "WindForecast_Elia"
      = ((get_days_in_month 2024 2).map
          (fun ds => (output_filename "WindForecast_Elia" ds, ([] : List Nat))),
         0) := by
  constructor
  · simp [get_days_in_month]
    decide
  · apply import_forecast_idempotent
    intro ds hds
    exact List.any_eq_true.2
      ⟨(output_filename "WindForecast_Elia" ds, []),
        List.mem_map.2 ⟨ds, hds, rfl⟩, by simp⟩

/-- C7 counterexample: the legacy import_belpex creates the browser session
before the existence check, and driver.quit() is the final statement of the
else-branch only: on the path where the CSV already exists the session is
created and never torn down, and an exception of the flow propagates before
quit runs. -/
theorem import_belpex_legacy_leaks :
    (import_belpex_legacy
        { csvExists := true, flowError := none }).driverCreated = true ∧
    (import_belpex_legacy
        { csvExists := true, flowError := none }).quitCalled = false ∧
    (import_belpex_legacy
        { csvExists := false,
          flowError := some { name := "TimeoutException", recoverable := true }
        }).quitCalled = false := by
  exact ⟨rfl, rfl, rfl⟩

/-- C7 amended: the revised import_belpex tears the browser session down on
every exit path on which a session was created — flow success and flow
exception alike, the exception still propagating — while on the path where
the period's CSV already exists the state machine is bypassed before any
session is created, so there is nothing to tear down. -/
theorem import_belpex_teardown (env : BelpexEnv) :
    ((import_belpex env).driverCreated = true →
      (import_belpex env).quitCalled = true) ∧
    (env.csvExists = true →
      import_belpex env
        = { driverCreated := false, quitCalled := false, outcome := .ok () }) ∧
    (env.csvExists = false →
      (import_belpex env).driverCreated = true ∧
      (import_belpex env).quitCalled = true ∧
      (import_belpex env).outcome = (match env.flowError with
        | none => .ok ()
        | some e => .error e)) := by
  obtain ⟨cs, fe⟩ := env
  cases cs <;> simp [import_belpex]

/-- Witness for C7's amended claim: a run whose flow raises a timeout still
calls driver.quit() and propagates the exception. -/
theorem import_belpex_teardown_witness :
    (({ csvExists := false,
        flowError := some { name := "TimeoutException", recoverable := true }
      } : BelpexEnv).csvExists = false) ∧
    (import_belpex
        { csvExists := false,
          flowError := some { name := "TimeoutException", recoverable := true }
        }).driverCreated = true ∧
    (import_belpex
        { csvExists := false,
          flowError := some { name := "TimeoutException", recoverable := true }
        }).quitCalled = true ∧
    (import_belpex
        { csvExists := false,
          flowError := some { name := "TimeoutException", recoverable := true }
        }).outcome
      = .error { name := "TimeoutException", recoverable := true } := by
  have h := import_belpex_teardown
    { csvExists := false,
      flowError := some { name := "TimeoutException", recoverable := true } }
  have h3 := h.2.2 rfl
  exact ⟨rfl, h3.1, h3.2.1, h3.2.2⟩

/-- Folding the Z-replacement over a Z-free character list just rebuilds the
list in front of the accumulator. -/
theorem foldr_replaceZ_no_z :
    ∀ (l acc : List Char), 'Z' ∉ l →
      l.foldr (fun c acc =>
        if c = 'Z' then '+' :: '0' :: '0' :: ':' :: '0' :: '0' :: acc
        else c :: acc) acc = l ++ acc := by
  intro l
  induction l with
  | nil => intro acc _; rfl
  | cons c l ih =>
    intro acc h
    have hc : c ≠ 'Z' := by intro hh; exact h (by simp [hh])
    simp only [List.foldr_cons, if_neg hc, List.cons_append, List.cons.injEq,
      true_and]
    exact ih acc (fun hm => h (by simp [hm]))

/-- C8: parse_record never raises — every failure of the datetime parse
(including a missing key) yields None and drops the record — and on success
it returns the record enriched with the parsed instant and the calendar
fields day, month, year, hour, minute and week derived from it; the
replacement applied to the timestamp rewrites a trailing 'Z' suffix to
'+00:00'. -/
theorem parse_record_soft (r : RawRecord) :
    (r.datetime = none → parse_record r = none) ∧
    (∀ s, r.datetime = some s → fromisoformat (replaceZ s) = none →
      parse_record r = none) ∧
    (∀ s dt, r.datetime = some s → fromisoformat (replaceZ s) = some dt →
      parse_record r = some
        { datetime := dt, day := dt.day, month := dt.month, year := dt.year,
          hour := dt.hour, minute := dt.minute,
          week := isoWeek dt.year dt.month dt.day, fields := r.fields }) ∧
    (∀ base : String, 'Z' ∉ base.data →
      replaceZ (base ++ "Z") = base ++ "+00:00") := by
  refine ⟨?_, ?_, ?_, ?_⟩
  · intro h; simp [parse_record, h]
  · intro s hs hp; simp [parse_record, hs, hp]
  · intro s dt hs hp; simp [parse_record, hs, hp]
  · intro base hz
    apply String.ext
    show ((base ++ ("Z" : String)).data.foldr
        (fun c acc =>
          if c = 'Z' then '+' :: '0' :: '0' :: ':' :: '0' :: '0' :: acc
          else c :: acc) []) = (base ++ ("+00:00" : String)).data
    rw [String.data_append, String.data_append, List.foldr_append]
    rw [foldr_replaceZ_no_z base.data _ hz]
    congr 1

/-- Witness for C8 at the record {"datetime": "2024-03-15T00:15:00Z"}: the
trailing Z is normalized, the instant parses, and the enriched record gains
day 15, month 3, year 2024, hour 0, minute 15, ISO week 11. -/
theorem parse_record_soft_witness :
    (({ datetime := some "2024-03-15T00:15:00Z", fields := [] }
        : RawRecord).datetime = some "2024-03-15T00:15:00Z") ∧
    fromisoformat (replaceZ "2024-03-15T00:15:00Z")
      = some { year := 2024, month := 3, day := 15, hour := 0, minute := 15,
               second := 0, tzMinutes := some 0 } ∧
    parse_record { datetime := some "2024-03-15T00:15:00Z", fields := [] }
      = some { datetime := { year := 2024, month := 3, day := 15, hour := 0,
                             minute := 15, second := 0, tzMinutes := some 0 },
               day := 15, month := 3, year := 2024, hour := 0, minute := 15,
               week := 11, fields := [] } := by
  have h := parse_record_soft
    { datetime := some "2024-03-15T00:15:00Z", fields := [] }
  have hiso : fromisoformat (replaceZ "2024-03-15T00:15:00Z")
      = some { year := 2024, month := 3, day := 15, hour := 0, minute := 15,
               second := 0, tzMinutes := some 0 } := by decide
  have h3 := h.2.2.1 "2024-03-15T00:15:00Z"
    { year := 2024, month := 3, day := 15, hour := 0, minute := 15,
      second := 0, tzMinutes := some 0 } rfl hiso
  refine ⟨rfl, hiso, ?_⟩
  rw [h3]
  decide

/-- The inner kind loop for one period: selected kinds are attempted in
process-map order, failing attempts land in failures, succeeding ones in
the counter, and nothing else of the trace changes. -/
theorem kindStep_foldl (fails : String → ℤ → ℤ → Bool) (dt : String)
    (y m : ℤ) :
    ∀ (ks : List String) (tr : UpdateTrace),
      (ks.foldl (kindStep fails dt y m) tr).attempts
        = tr.attempts
          ++ (ks.filter (fun k => dt = k ∨ dt = "all")).map
            (fun k => (k, y, m)) ∧
      (ks.foldl (kindStep fails dt y m) tr).failures
        = tr.failures
          ++ ((ks.filter (fun k => dt = k ∨ dt = "all")).map
            (fun k => (k, y, m))).filter (fun a => fails a.1 a.2.1 a.2.2) ∧
      (ks.foldl (kindStep fails dt y m) tr).counter
        = tr.counter
          + (((ks.filter (fun k => dt = k ∨ dt = "all")).map
            (fun k => (k, y, m))).filter
              (fun a => !fails a.1 a.2.1 a.2.2)).length ∧
      (ks.foldl (kindStep fails dt y m) tr).unzipped = tr.unzipped ∧
      (ks.foldl (kindStep fails dt y m) tr).zipped = tr.zipped := by
  intro ks
  induction ks with
  | nil => intro tr; simp
  | cons k ks ih =>
    intro tr
    obtain ⟨ha, hf, hc, hu, hz⟩ := ih (kindStep fails dt y m tr k)
    have hstep : (k :: ks).foldl (kindStep fails dt y m) tr
        = ks.foldl (kindStep fails dt y m) (kindStep fails dt y m tr k) := rfl
    by_cases hsel : dt = k ∨ dt = "all"
    · by_cases hfl : fails k y m
      · have hk : kindStep fails dt y m tr k
            = { tr with attempts := tr.attempts ++ [(k, y, m)],
                        failures := tr.failures ++ [(k, y, m)] } := by
          simp [kindStep, hsel, hfl]
        refine ⟨?_, ?_, ?_, ?_, ?_⟩
        · rw [hstep, ha, hk]; simp [List.filter_cons, hsel]
        · rw [hstep, hf, hk]; simp [List.filter_cons, hsel, hfl]
        · rw [hstep, hc, hk]; simp [List.filter_cons, hsel, hfl]
        · rw [hstep, hu, hk]
        · rw [hstep, hz, hk]
      · have hk : kindStep fails dt y m tr k
            = { tr with attempts := tr.attempts ++ [(k, y, m)],
                        counter := tr.counter + 1 } := by
          simp [kindStep, hsel, hfl]
        refine ⟨?_, ?_, ?_, ?_, ?_⟩
        · rw [hstep, ha, hk]; simp [List.filter_cons, hsel]
        · rw [hstep, hf, hk]; simp [List.filter_cons, hsel, hfl]
        · rw [hstep, hc, hk]; simp [List.filter_cons, hsel, hfl]; omega
        · rw [hstep, hu, hk]
        · rw [hstep, hz, hk]
    · have hk : kindStep fails dt y m tr k = tr := by
        simp [kindStep, hsel]
      refine ⟨?_, ?_, ?_, ?_, ?_⟩
      · rw [hstep, ha, hk]; simp [List.filter_cons, hsel]
      · rw [hstep, hf, hk]; simp [List.filter_cons, hsel]
      · rw [hstep, hc, hk]; simp [List.filter_cons, hsel]
      · rw [hstep, hu, hk]
      · rw [hstep, hz, hk]

/-- The month loop: each period in the window contributes exactly its
planned attempts, failures are the failing attempts, the counter the
successful ones; the unzip and zip flags pass through unchanged. -/
theorem periodStep_foldl (fails : String → ℤ → ℤ → Bool) (dt : String)
    (latest : ℤ × ℤ) :
    ∀ (ps : List (ℤ × ℤ)) (tr : UpdateTrace),
      (ps.foldl (periodStep fails dt latest) tr).attempts
        = tr.attempts ++ ps.flatMap (attemptsFor dt latest) ∧
      (ps.foldl (periodStep fails dt latest) tr).failures
        = tr.failures ++ (ps.flatMap (attemptsFor dt latest)).filter
            (fun a => fails a.1 a.2.1 a.2.2) ∧
      (ps.foldl (periodStep fails dt latest) tr).counter
        = tr.counter + ((ps.flatMap (attemptsFor dt latest)).filter
            (fun a => !fails a.1 a.2.1 a.2.2)).length ∧
      (ps.foldl (periodStep fails dt latest) tr).unzipped = tr.unzipped ∧
      (ps.foldl (periodStep fails dt latest) tr).zipped = tr.zipped := by
  intro ps
  induction ps with
  | nil => intro tr; simp
  | cons p ps ih =>
    intro tr
    have hstep : (p :: ps).foldl (periodStep fails dt latest) tr
        = ps.foldl (periodStep fails dt latest)
            (periodStep fails dt latest tr p) := rfl
    by_cases hskip : (p.1 = latest.1 ∧ latest.2 < p.2) ∨ latest.1 < p.1
    · have hk : periodStep fails dt latest tr p = tr := by
        simp [periodStep, hskip]
      obtain ⟨ha, hf, hc, hu, hz⟩ := ih tr
      have hA : attemptsFor dt latest p = [] := by
        simp [attemptsFor, hskip]
      refine ⟨?_, ?_, ?_, ?_, ?_⟩ <;>
        rw [hstep, hk] <;> simp [ha, hf, hc, hu, hz, hA]
    · obtain ⟨ha, hf, hc, hu, hz⟩ := ih (periodStep fails dt latest tr p)
      have hk : periodStep fails dt latest tr p
          = importKinds.foldl (kindStep fails dt p.1 p.2) tr := by
        simp [periodStep, hskip]
      have hA : attemptsFor dt latest p
          = (importKinds.filter (fun k => dt = k ∨ dt = "all")).map
              (fun k => (k, p.1, p.2)) := by
        simp [attemptsFor, hskip, selectedKinds]
      obtain ⟨ka, kf, kc, ku, kz⟩ :=
        kindStep_foldl fails dt p.1 p.2 importKinds tr
      refine ⟨?_, ?_, ?_, ?_, ?_⟩
      · rw [hstep, ha, hk, ka]
        simp [hA]
      · rw [hstep, hf, hk, kf]
        simp [hA, List.filter_append]
      · rw [hstep, hc, hk, kc]
        simp [hA, List.filter_append]
        omega
      · rw [hstep, hu, hk, ku]
      · rw [hstep, hz, hk, kz]

/-- C9: update_data raises only the ValueError for a data_type outside
{wind, solar, belpex, all}, and raises it before any unzip, fetch or zip
work; for a valid data_type the run completes normally whatever the
per-kind imports do — every (kind, year, month) of the window is attempted
in order regardless of which imports raise, the raising attempts are caught
and recorded, and the counter counts exactly the successful ones. -/
theorem update_data_failure_isolation (fails : String → ℤ → ℤ → Bool)
    (ty tm td from_year to_year : ℤ) (data_type : String) :
    (data_type ∉ allowedTypes →
      update_data fails ty tm td from_year to_year data_type
        = .error "invalid data_type") ∧
    (data_type ∈ allowedTypes → ∃ tr : UpdateTrace,
      update_data fails ty tm td from_year to_year data_type = .ok tr ∧
      tr.attempts = plannedAttempts
        (get_latest_available_year_month ty tm td) from_year to_year
        data_type ∧
      tr.failures = tr.attempts.filter (fun a => fails a.1 a.2.1 a.2.2) ∧
      tr.counter
        = (tr.attempts.filter (fun a => !fails a.1 a.2.1 a.2.2)).length) := by
  constructor
  · intro h
    simp [update_data, h]
  · intro h
    obtain ⟨ha, hf, hc, _, _⟩ := periodStep_foldl fails data_type
      (get_latest_available_year_month ty tm td)
      (periodsList from_year to_year)
      { unzipped := isForecastChoice data_type, attempts := [],
        failures := [], counter := 0, zipped := false }
    refine ⟨{ (periodsList from_year to_year).foldl
          (periodStep fails data_type
            (get_latest_available_year_month ty tm td))
          { unzipped := isForecastChoice data_type, attempts := [],
            failures := [], counter := 0, zipped := false } with
        zipped := isForecastChoice data_type }, ?_, ?_, ?_, ?_⟩
    · simp [update_data, h]
    · show ((periodsList from_year to_year).foldl
          (periodStep fails data_type
            (get_latest_available_year_month ty tm td))
          { unzipped := isForecastChoice data_type, attempts := [],
            failures := [], counter := 0, zipped := false }).attempts = _
      rw [ha]
      simp [plannedAttempts]
    · show ((periodsList from_year to_year).foldl
          (periodStep fails data_type
            (get_latest_available_year_month ty tm td))
          { unzipped := isForecastChoice data_type, attempts := [],
            failures := [], counter := 0, zipped := false }).failures
        = List.filter (fun a => fails a.1 a.2.1 a.2.2)
            ((periodsList from_year to_year).foldl
              (periodStep fails data_type
                (get_latest_available_year_month ty tm td))
              { unzipped := isForecastChoice data_type, attempts := [],
                failures := [], counter := 0, zipped := false }).attempts
      rw [hf, ha]
      simp
    · show ((periodsList from_year to_year).foldl
          (periodStep fails data_type
            (get_latest_available_year_month ty tm td))
          { unzipped := isForecastChoice data_type, attempts := [],
            failures := [], counter := 0, zipped := false }).counter
        = (List.filter (fun a => !fails a.1 a.2.1 a.2.2)
            ((periodsList from_year to_year).foldl
              (periodStep fails data_type
                (get_latest_available_year_month ty tm td))
              { unzipped := isForecastChoice data_type, attempts := [],
                failures := [], counter := 0, zipped := false }).attempts).length
      rw [hc, ha]
      simp

/-- Witness for C9: a run over 2026 with reference date 2026-10-12 (latest
available period 2026-09) and an import that raises for every January: the
run completes, all nine wind periods are attempted, the January failure is
caught and logged, and eight fetches succeed. -/
theorem update_data_failure_isolation_witness :
    ("wind" ∈ allowedTypes) ∧
    ∃ tr : UpdateTrace,
      update_data (fun _ _ m => decide (m = 1)) 2026 10 12 2026 2026 "wind"
        = .ok tr ∧
      tr.attempts = [("wind", 2026, 1), ("wind", 2026, 2), ("wind", 2026, 3),
        ("wind", 2026, 4), ("wind", 2026, 5), ("wind", 2026, 6),
        ("wind", 2026, 7), ("wind", 2026, 8), ("wind", 2026, 9)] ∧
      tr.failures = [("wind", 2026, 1)] ∧
      tr.counter = 8 := by
  obtain ⟨tr, htr, hatt, hfail, hcnt⟩ := (update_data_failure_isolation
    (fun _ _ m => decide (m = 1)) 2026 10 12 2026 2026 "wind").2 (by decide)
  have hplan : plannedAttempts (get_latest_available_year_month 2026 10 12)
      2026 2026 "wind"
      = [("wind", 2026, 1), ("wind", 2026, 2), ("wind", 2026, 3),
        ("wind", 2026, 4), ("wind", 2026, 5), ("wind", 2026, 6),
        ("wind", 2026, 7), ("wind", 2026, 8), ("wind", 2026, 9)] := by
    decide
  rw [hplan] at hatt
  refine ⟨by decide, tr, htr, hatt, ?_, ?_⟩
  · rw [hfail, hatt]
    decide
  · rw [hcnt, hatt]
    decide

end EnergyPipeline
